import Mathlib

/-!
Verification of the MCP-Nexus core: the Remote Client Registry
(`MCPClientInstance` / `MCPClientManager`), the Workflow Engine
(`executeWorkflow` / `executeDistributedWorkflow`), and the Process
Supervisor (`MCPServerInstance`).  Every definition below is a shallow
embedding of the corresponding TypeScript in `src/shared/schema.ts`;
line numbers in doc comments refer to that file.  Asynchrony is
modelled by passing the remote outcome of each network call as an
explicit argument, and timers (health-check interval, delayed restart)
as explicit events delivered to a step function.
-/

/-- JSON-ish values used for tool parameters and result payloads. -/
inductive JVal where
  | null
  | bool (b : Bool)
  | num (n : Int)
  | str (s : String)
deriving DecidableEq, Repr

/-- A JS object used as a parameter map, modelled as an association list
where the first binding of a key wins (so prepending overrides, matching
the object-spread `{...p, k: v}` in the source). -/
abbrev Params := List (String × JVal)

/-- State of one `MCPClientInstance` (schema.ts:151-179): the `connected`
flag, the discovered tool/resource name lists, and `lastHealthCheck`. -/
structure MCPClientInstance where
  id : String
  connected : Bool
  tools : List String
  resources : List String
  lastHealthCheck : Option Nat
deriving DecidableEq, Repr

/-- `MCPToolResult` (schema.ts:143-149). -/
structure MCPToolResult where
  success : Bool
  data : Option JVal
  error : Option String
  executionTime : Nat
  correlationId : Option String
deriving DecidableEq, Repr

/-- A record of one actual network call to `POST /mcp/tools/invoke`;
the invocation log of a run lists these in order. -/
structure Invocation where
  clientId : String
  toolName : String
  parameters : Params
  correlationId : Option String
deriving DecidableEq, Repr

/-- The two synchronous precondition failures thrown by `invokeTool`
(schema.ts:221-227). -/
inductive MCPError where
  | notConnected (clientId : String)
  | capabilityError (clientId toolName : String)
deriving DecidableEq, Repr

/-- The message text of a thrown precondition failure. -/
def MCPError.message : MCPError → String
  | .notConnected cid => s!"Client {cid} is not connected"
  | .capabilityError cid t => s!"Tool {t} not available on client {cid}"

/-- Events emitted by a client instance. -/
inductive ClientEvent where
  | toolInvoked (clientId toolName : String)
  | toolError (clientId toolName error : String)
  | healthCheckEv (clientId : String) (healthy : Bool) (timestamp : Nat)
deriving DecidableEq, Repr

/-- `MCPClientInstance.invokeTool` (schema.ts:220-277).  The outcome of
the single HTTP POST is passed in as `remote`; the elapsed wall-clock
time as `elapsed`.  Returns the thrown error or the result plus emitted
event, together with the list of network calls actually performed. -/
def MCPClientInstance.invokeTool (c : MCPClientInstance) (toolName : String)
    (parameters : Params) (correlationId : Option String)
    (remote : Except String JVal) (elapsed : Nat) :
    Except MCPError (MCPToolResult × ClientEvent) × List Invocation :=
  if c.connected = false then
    (.error (.notConnected c.id), [])
  else if c.tools.contains toolName = false then
    (.error (.capabilityError c.id toolName), [])
  else
    let call : Invocation := ⟨c.id, toolName, parameters, correlationId⟩
    match remote with
    | .ok d =>
        (.ok (⟨true, some d, none, elapsed, correlationId⟩, .toolInvoked c.id toolName), [call])
    | .error msg =>
        (.ok (⟨false, none, some msg, elapsed, correlationId⟩, .toolError c.id toolName msg), [call])

/-- **C4** — `invokeTool` throws only in the two synchronous
precondition-violation cases (`NotConnected` when the client is not
connected, `CapabilityError` when the tool is not in the discovered
set), performing zero network calls in both; in every other case it
never throws, performs exactly one network call, and returns
`{success := true, data, executionTime, correlationId}` with a
`toolInvoked` event on remote success and `{success := false, error,
executionTime, correlationId}` with a `toolError` event on remote
failure or timeout. -/
theorem invokeTool_throws_only_preconditions (c : MCPClientInstance)
    (toolName : String) (parameters : Params) (correlationId : Option String)
    (remote : Except String JVal) (elapsed : Nat) :
    (c.connected = false →
      c.invokeTool toolName parameters correlationId remote elapsed =
        (.error (.notConnected c.id), [])) ∧
    (c.connected = true → c.tools.contains toolName = false →
      c.invokeTool toolName parameters correlationId remote elapsed =
        (.error (.capabilityError c.id toolName), [])) ∧
    (c.connected = true → c.tools.contains toolName = true →
      c.invokeTool toolName parameters correlationId remote elapsed =
        (match remote with
         | .ok d => (.ok (⟨true, some d, none, elapsed, correlationId⟩,
             .toolInvoked c.id toolName), [⟨c.id, toolName, parameters, correlationId⟩])
         | .error msg => (.ok (⟨false, none, some msg, elapsed, correlationId⟩,
             .toolError c.id toolName msg), [⟨c.id, toolName, parameters, correlationId⟩]))) := by
  refine ⟨fun h => ?_, fun h1 h2 => ?_, fun h1 h2 => ?_⟩
  · simp [MCPClientInstance.invokeTool, h]
  · simp only [MCPClientInstance.invokeTool, h1, h2]
    simp
  · simp only [MCPClientInstance.invokeTool, h1, h2]
    cases remote <;> simp

/-- Witness for C4: at a concrete connected client with the tool
discovered and a successful remote call, and at a concrete disconnected
client, the characterisation evaluates as stated. -/
theorem invokeTool_throws_only_preconditions_witness :
    (MCPClientInstance.invokeTool ⟨"x", true, ["ping"], [], none⟩ "ping" [] none
        (.ok (.num 7)) 3 =
      (.ok (⟨true, some (.num 7), none, 3, none⟩, .toolInvoked "x" "ping"),
       [⟨"x", "ping", [], none⟩])) ∧
    (MCPClientInstance.invokeTool ⟨"y", false, ["ping"], [], none⟩ "ping" [] none
        (.ok (.num 7)) 3 =
      (.error (.notConnected "y"), [])) := by
  constructor
  · exact (invokeTool_throws_only_preconditions ⟨"x", true, ["ping"], [], none⟩
      "ping" [] none (.ok (.num 7)) 3).2.2 (by rfl) (by decide)
  · exact (invokeTool_throws_only_preconditions ⟨"y", false, ["ping"], [], none⟩
      "ping" [] none (.ok (.num 7)) 3).1 (by rfl)

/-- Status of a supervised server process (schema.ts:1753). -/
inductive SrvStatus where
  | stopped
  | running
  | error
deriving DecidableEq, Repr

/-- State of one `MCPServerInstance` (schema.ts:1749-1760) together with
its timer environment: `hasProcess` records whether a live OS child
process exists, and `pendingRestarts` counts delayed-restart callbacks
scheduled via `setTimeout` (schema.ts:1852-1856) that have not yet
fired.  The source keeps no handle to these timers, so nothing can
cancel them. -/
structure ServerInst where
  autoRestart : Bool
  maxRestarts : Nat
  restartCount : Nat
  status : SrvStatus
  hasProcess : Bool
  pendingRestarts : Nat
deriving DecidableEq, Repr

/-- The `exit` listener (schema.ts:1838-1858): set `status` to `stopped`
for exit code 0 and `error` otherwise (JS `code === 0` is false for a
`null` code from a signal kill), then schedule a delayed restart when
`autoRestart` holds, `restartCount < maxRestarts`, and `code !== 0`
(also true for a `null` code). -/
def ServerInst.handleExit (s : ServerInst) (code : Option Int) : ServerInst :=
  let s1 : ServerInst :=
    { s with status := if code = some 0 then .stopped else .error, hasProcess := false }
  if s1.autoRestart ∧ s1.restartCount < s1.maxRestarts ∧ code ≠ some 0 then
    { s1 with pendingRestarts := s1.pendingRestarts + 1 }
  else s1

/-- `start` (schema.ts:1762-1790) on the successful-spawn path: throws
`AlreadyRunning` (state unchanged) when `status = running`, otherwise
spawns and sets `status := running`. -/
def ServerInst.startOk (s : ServerInst) : ServerInst :=
  if s.status = .running then s
  else { s with status := .running, hasProcess := true }

/-- `stop` (schema.ts:1792-1813): if a live process exists, `SIGTERM`
makes it exit with a `null` code, running the `exit` listener; `stop`
then sets `status := stopped`.  Any restart the listener scheduled
stays pending — the source holds no cancel handle. -/
def ServerInst.stopProc (s : ServerInst) : ServerInst :=
  let s1 := if s.hasProcess then s.handleExit none else s
  { s1 with status := .stopped, hasProcess := false }

/-- A pending delayed restart fires (schema.ts:1852-1856 calling
`restart`, schema.ts:1815-1821): `stop`, increment `restartCount`,
`start`. -/
def ServerInst.fireRestart (s : ServerInst) : ServerInst :=
  if s.pendingRestarts = 0 then s
  else
    let s1 := { s with pendingRestarts := s.pendingRestarts - 1 }
    let s2 := s1.stopProc
    let s3 := { s2 with restartCount := s2.restartCount + 1 }
    s3.startOk

/-- Events driving a supervised instance: external start/stop commands,
an observed process exit, and a scheduled restart timer firing. -/
inductive SrvEvent where
  | startCmd
  | stopCmd
  | exitEv (code : Option Int)
  | fireTimer
deriving DecidableEq, Repr

/-- One step of the supervisor state machine.  A process exit can only
be observed while a process exists; a restart timer can only fire while
one is pending (`fireRestart` is the identity otherwise). -/
def ServerInst.stepSrv (s : ServerInst) : SrvEvent → ServerInst
  | .startCmd => s.startOk
  | .stopCmd => s.stopProc
  | .exitEv code => if s.hasProcess then s.handleExit code else s
  | .fireTimer => s.fireRestart

/-- Run a list of events from a state. -/
def ServerInst.runTrace (s : ServerInst) (es : List SrvEvent) : ServerInst :=
  es.foldl ServerInst.stepSrv s

/-- A freshly created instance with `autoRestart = true` and the given
`maxRestarts` (schema.ts:1757-1760). -/
def initSrv (maxRestarts : Nat) : ServerInst :=
  ⟨true, maxRestarts, 0, .stopped, false, 0⟩

/-- The always-crashing command: each crash cycle is an abnormal exit
followed by the scheduled restart firing. -/
def crashCycles : Nat → List SrvEvent
  | 0 => []
  | n + 1 => .exitEv (some 1) :: .fireTimer :: crashCycles n

/-- Start the instance, let it crash `n` times with each scheduled
restart firing, then observe one more abnormal exit. -/
def crashLoopTrace (n : Nat) : List SrvEvent :=
  .startCmd :: (crashCycles n ++ [.exitEv (some 1)])

theorem crashCycles_run (n : Nat) :
    ∀ k, k + n = n + k →
      ServerInst.runTrace ⟨true, k + n, k, .running, true, 0⟩ (crashCycles n) =
        ⟨true, k + n, k + n, .running, true, 0⟩ := by
  induction n with
  | zero => intro k _; simp [crashCycles, ServerInst.runTrace]
  | succ n ih =>
    intro k _
    have hlt : k < k + (n + 1) := by omega
    have step1 :
        ServerInst.runTrace ⟨true, k + (n + 1), k, .running, true, 0⟩ (crashCycles (n + 1)) =
          ServerInst.runTrace ⟨true, k + (n + 1), k + 1, .running, true, 0⟩ (crashCycles n) := by
      simp only [crashCycles, ServerInst.runTrace, List.foldl_cons]
      have h1 : (ServerInst.stepSrv ⟨true, k + (n + 1), k, .running, true, 0⟩
          (.exitEv (some 1))) = ⟨true, k + (n + 1), k, .error, false, 1⟩ := by
        simp [ServerInst.stepSrv, ServerInst.handleExit, hlt]
      have h2 : (ServerInst.stepSrv ⟨true, k + (n + 1), k, .error, false, 1⟩
          .fireTimer) = ⟨true, k + (n + 1), k + 1, .running, true, 0⟩ := by
        simp [ServerInst.stepSrv, ServerInst.fireRestart, ServerInst.stopProc,
          ServerInst.handleExit, ServerInst.startOk]
      rw [h1, h2]
    have h3 : k + (n + 1) = (k + 1) + n := by omega
    rw [step1]
    have := ih (k + 1)
    rw [h3]
    exact this (by omega)

theorem crashLoop_settles (n : Nat) :
    (initSrv n).runTrace (crashLoopTrace n) = ⟨true, n, n, .error, false, 0⟩ := by
  have h0 : ServerInst.stepSrv (initSrv n) .startCmd = ⟨true, n, 0, .running, true, 0⟩ := by
    simp [initSrv, ServerInst.stepSrv, ServerInst.startOk]
  have hmid := crashCycles_run n 0 (by omega)
  simp only [Nat.zero_add] at hmid
  have hlast : ServerInst.stepSrv ⟨true, n, n, .running, true, 0⟩ (.exitEv (some 1)) =
      ⟨true, n, n, .error, false, 0⟩ := by
    simp [ServerInst.stepSrv, ServerInst.handleExit]
  calc (initSrv n).runTrace (crashLoopTrace n)
      = ServerInst.runTrace ⟨true, n, 0, .running, true, 0⟩ (crashCycles n ++ [.exitEv (some 1)]) := by
        simp only [crashLoopTrace, ServerInst.runTrace, List.foldl_cons, h0]
    _ = ServerInst.stepSrv (ServerInst.runTrace ⟨true, n, 0, .running, true, 0⟩ (crashCycles n))
          (.exitEv (some 1)) := by
        simp [ServerInst.runTrace, List.foldl_append]
    _ = ⟨true, n, n, .error, false, 0⟩ := by rw [hmid, hlast]

/-- Counterexample for **C2** as stated: with `maxRestarts = 1` and
`autoRestart = true`, after exactly one abnormal exit the instance has
`restartCount = 0` (not `maxRestarts`) and one delayed restart *is*
scheduled — the claim demanded `restartCount = maxRestarts` and no
scheduled restart at that point. -/
theorem restartExhaustion_counterexample :
    (initSrv 1).runTrace [.startCmd, .exitEv (some 1)] = ⟨true, 1, 0, .error, false, 1⟩ ∧
    ¬ (((initSrv 1).runTrace [.startCmd, .exitEv (some 1)]).restartCount = 1 ∧
       ((initSrv 1).runTrace [.startCmd, .exitEv (some 1)]).pendingRestarts = 0) := by
  decide

/-- **C2 (amended)** — the `i`-th abnormal exit schedules the `i`-th
restart while `restartCount = i - 1 < maxRestarts`, so the crash loop
settles only after `maxRestarts + 1` abnormal exits: the settled state
has `restartCount = maxRestarts`, `status = error`, and nothing
scheduled; and once `restartCount ≥ maxRestarts`, a further abnormal
exit sets `status = error` and schedules nothing, leaving
`restartCount` unchanged (so it never exceeds `maxRestarts` in the
crash loop). -/
theorem restartExhaustion_amended (n : Nat) (s : ServerInst) (code : Option Int) :
    ((initSrv n).runTrace (crashLoopTrace n) = ⟨true, n, n, .error, false, 0⟩) ∧
    (s.hasProcess = true → s.autoRestart = true → s.restartCount < s.maxRestarts →
      code ≠ some 0 →
      s.stepSrv (.exitEv code) =
        { s with status := .error, hasProcess := false,
                 pendingRestarts := s.pendingRestarts + 1 }) ∧
    (s.hasProcess = true → s.maxRestarts ≤ s.restartCount → code ≠ some 0 →
      s.stepSrv (.exitEv code) = { s with status := .error, hasProcess := false }) := by
  refine ⟨crashLoop_settles n, fun hp ha hlt hc => ?_, fun hp hle hc => ?_⟩
  · simp [ServerInst.stepSrv, ServerInst.handleExit, hp, ha, hlt, hc]
  · have : ¬ s.restartCount < s.maxRestarts := by omega
    simp [ServerInst.stepSrv, ServerInst.handleExit, hp, hc, this]

/-- Witness for C2 (amended): the crash loop with `maxRestarts = 2`
settles at `restartCount = 2`, a first abnormal exit schedules a
restart, and an abnormal exit at the limit schedules nothing. -/
theorem restartExhaustion_amended_witness :
    ((initSrv 2).runTrace (crashLoopTrace 2) = ⟨true, 2, 2, .error, false, 0⟩) ∧
    ((⟨true, 2, 0, .running, true, 0⟩ : ServerInst).stepSrv (.exitEv (some 1)) =
      ⟨true, 2, 0, .error, false, 1⟩) ∧
    ((⟨true, 1, 1, .running, true, 0⟩ : ServerInst).stepSrv (.exitEv (some 1)) =
      ⟨true, 1, 1, .error, false, 0⟩) := by
  refine ⟨(restartExhaustion_amended 2 (initSrv 2) none).1, ?_, ?_⟩
  · exact (restartExhaustion_amended 2 ⟨true, 2, 0, .running, true, 0⟩ (some 1)).2.1
      rfl rfl (by decide) (by decide)
  · exact (restartExhaustion_amended 2 ⟨true, 1, 1, .running, true, 0⟩ (some 1)).2.2
      rfl (by decide) (by decide)

/-- **C3** — the code violates the claim: a manual `stop` of a running
instance with `autoRestart = true` and `restartCount < maxRestarts`
kills the process, whose exit (`null` code, and JS `null !== 0` holds)
runs the auto-restart branch and schedules an uncancellable delayed
restart; when that timer fires, the supposedly stopped instance is
running again with `restartCount = 1`. -/
theorem manualStop_schedules_restart :
    ((⟨true, 3, 0, .running, true, 0⟩ : ServerInst).stepSrv .stopCmd =
      ⟨true, 3, 0, .stopped, false, 1⟩) ∧
    ((⟨true, 3, 0, .running, true, 0⟩ : ServerInst).runTrace [.stopCmd, .fireTimer] =
      ⟨true, 3, 1, .running, true, 0⟩) := by
  decide

/-- `MCPClientManager` state (schema.ts:426-428): the registered client
instances, as a JS `Map` keyed by id and iterated in registration
(insertion) order. -/
structure MCPClientManager where
  clients : List (String × MCPClientInstance)
deriving DecidableEq, Repr

/-- A workflow step (schema.ts:750-762): `clientId` is optional only in
the distributed engine; `executeWorkflow` reads it directly. -/
structure WStep where
  name : String
  clientId : Option String
  toolName : String
  parameters : Params
  dependsOn : List String
  outputTo : Option String
deriving DecidableEq, Repr

/-- `invokeToolOnClient` (schema.ts:467-474): throws `not found` for an
unknown id, otherwise delegates to the client's `invokeTool`; thrown
`MCPError`s propagate as their message strings. -/
def MCPClientManager.invokeToolOnClient (m : MCPClientManager) (clientId toolName : String)
    (parameters : Params) (correlationId : Option String) (remote : Except String JVal) :
    Except String MCPToolResult × List Invocation :=
  match m.clients.lookup clientId with
  | none => (.error s!"Client {clientId} not found", [])
  | some c =>
    match c.invokeTool toolName parameters correlationId remote 0 with
    | (.error e, inv) => (.error e.message, inv)
    | (.ok (r, _), inv) => (.ok r, inv)

/-- `executeWorkflowStep` (schema.ts:549-558): looks the step's client
up by `clientId` (a missing field behaves like JS
`clients.get(undefined)`), throws `not found` when absent, and calls
`invokeTool` without a correlation id. -/
def MCPClientManager.executeWorkflowStep (m : MCPClientManager) (step : WStep)
    (remote : Except String JVal) : Except String MCPToolResult × List Invocation :=
  match step.clientId with
  | none => (.error s!"Client undefined not found for step {step.name}", [])
  | some cid =>
    match m.clients.lookup cid with
    | none => (.error s!"Client {cid} not found for step {step.name}", [])
    | some c =>
      match c.invokeTool step.toolName step.parameters none remote 0 with
      | (.error e, inv) => (.error e.message, inv)
      | (.ok (r, _), inv) => (.ok r, inv)

/-- One entry of `execution.steps` (schema.ts:498-503). -/
structure StepRecord where
  stepIndex : Nat
  stepName : String
  result : MCPToolResult
deriving DecidableEq, Repr

/-- Outcome of the `executeWorkflow` step loop (schema.ts:492-525):
the failure (thrown step index and message) if any, the recorded step
results, the network calls performed, and the final `currentStep`. -/
structure StepsOutcome where
  failure : Option (Nat × String)
  recs : List StepRecord
  invocations : List Invocation
  currentStep : Nat
deriving DecidableEq, Repr

/-- The `for` loop of `executeWorkflow` (schema.ts:492-525): each step
runs via `executeWorkflowStep`; a *thrown* error fails the workflow at
that index and halts, while a returned result — with `success` true or
false alike — is pushed onto `execution.steps` and the loop continues. -/
def runWorkflowSteps (m : MCPClientManager) (remote : Nat → Except String JVal) :
    List WStep → Nat → List StepRecord → List Invocation → Nat → StepsOutcome
  | [], _, recs, inv, cur => ⟨none, recs, inv, cur⟩
  | step :: rest, i, recs, inv, _ =>
    match m.executeWorkflowStep step (remote i) with
    | (.error e, inv2) => ⟨some (i, e), recs, inv ++ inv2, i⟩
    | (.ok r, inv2) =>
        runWorkflowSteps m remote rest (i + 1) (recs ++ [⟨i, step.name, r⟩]) (inv ++ inv2) i

/-- The mutable `WorkflowExecution` record built by `executeWorkflow`
(schema.ts:480-487 plus the fields assigned later). -/
structure WorkflowExecution where
  id : String
  status : String
  steps : List StepRecord
  currentStep : Nat
  error : Option String
  failedStep : Option Nat
deriving DecidableEq, Repr

/-- Result of one `executeWorkflow` call: the returned workflow id or
the rethrown error, the stored execution record, and the network calls
performed. -/
structure WorkflowRunOutput where
  returned : Except String String
  exec : WorkflowExecution
  invocations : List Invocation
deriving Repr

/-- `executeWorkflow` (schema.ts:476-547): the id is
`workflow-${Date.now()}`; the execution starts `running` and ends
`completed`, or `failed` with `failedStep` and `error` set when a step
throws (the error is rethrown to the caller). -/
def MCPClientManager.executeWorkflow (m : MCPClientManager) (now : Nat)
    (steps : List WStep) (remote : Nat → Except String JVal) : WorkflowRunOutput :=
  let workflowId := s!"workflow-{now}"
  match runWorkflowSteps m remote steps 0 [] [] 0 with
  | ⟨none, recs, inv, cur⟩ =>
      ⟨.ok workflowId, ⟨workflowId, "completed", recs, cur, none, none⟩, inv⟩
  | ⟨some (i, e), recs, inv, cur⟩ =>
      ⟨.error e, ⟨workflowId, "failed", recs, cur, some e, some i⟩, inv⟩

/-- Whether `executeWorkflowStep` would throw for this step: the
client is missing, not connected, or the tool is undiscovered.  This is
independent of the remote outcome. -/
def MCPClientManager.stepThrows (m : MCPClientManager) (step : WStep) : Bool :=
  match step.clientId with
  | none => true
  | some cid =>
    match m.clients.lookup cid with
    | none => true
    | some c => !(c.connected && c.tools.contains step.toolName)

theorem executeWorkflowStep_of_throws (m : MCPClientManager) (step : WStep)
    (r : Except String JVal) (h : m.stepThrows step = true) :
    ∃ e, m.executeWorkflowStep step r = (.error e, []) := by
  obtain ⟨nm, cido, tool, params, dep, out⟩ := step
  cases cido with
  | none =>
    exact ⟨s!"Client undefined not found for step {nm}",
      by simp [MCPClientManager.executeWorkflowStep]⟩
  | some cid =>
    simp only [MCPClientManager.stepThrows] at h
    cases hl : m.clients.lookup cid with
    | none =>
      exact ⟨s!"Client {cid} not found for step {nm}",
        by simp [MCPClientManager.executeWorkflowStep, hl]⟩
    | some c =>
      rw [hl] at h
      simp only [Bool.not_eq_true', Bool.and_eq_false_iff] at h
      rcases h with h | h
      · exact ⟨(MCPError.notConnected c.id).message,
          by simp [MCPClientManager.executeWorkflowStep, hl,
            MCPClientInstance.invokeTool, h]⟩
      · have hmem : ¬ tool ∈ c.tools := by simpa using h
        cases hcn : c.connected
        · exact ⟨(MCPError.notConnected c.id).message,
            by simp [MCPClientManager.executeWorkflowStep, hl,
              MCPClientInstance.invokeTool, hcn]⟩
        · exact ⟨(MCPError.capabilityError c.id tool).message,
            by simp [MCPClientManager.executeWorkflowStep, hl,
              MCPClientInstance.invokeTool, hcn, hmem]⟩

theorem executeWorkflowStep_of_ok (m : MCPClientManager) (step : WStep)
    (r : Except String JVal) (h : m.stepThrows step = false) :
    ∃ res call, m.executeWorkflowStep step r = (.ok res, [call]) := by
  obtain ⟨nm, cido, tool, params, dep, out⟩ := step
  cases cido with
  | none => exact absurd h (by simp [MCPClientManager.stepThrows])
  | some cid =>
    simp only [MCPClientManager.stepThrows] at h
    cases hl : m.clients.lookup cid with
    | none => rw [hl] at h; exact absurd h (by simp)
    | some c =>
      rw [hl] at h
      simp at h
      cases r with
      | ok d =>
        exact ⟨⟨true, some d, none, 0, none⟩, ⟨c.id, tool, params, none⟩,
          by simp [MCPClientManager.executeWorkflowStep, hl,
            MCPClientInstance.invokeTool, h.1, h.2]⟩
      | error msg =>
        exact ⟨⟨false, none, some msg, 0, none⟩, ⟨c.id, tool, params, none⟩,
          by simp [MCPClientManager.executeWorkflowStep, hl,
            MCPClientInstance.invokeTool, h.1, h.2]⟩

theorem runWorkflowSteps_all_ok (m : MCPClientManager) (remote : Nat → Except String JVal) :
    ∀ (rest : List WStep) (i : Nat) (recs : List StepRecord) (inv : List Invocation) (cur : Nat),
    (∀ s ∈ rest, m.stepThrows s = false) →
    (runWorkflowSteps m remote rest i recs inv cur).failure = none ∧
    (runWorkflowSteps m remote rest i recs inv cur).invocations.length
      = inv.length + rest.length ∧
    (runWorkflowSteps m remote rest i recs inv cur).recs.length = recs.length + rest.length := by
  intro rest
  induction rest with
  | nil => intro i recs inv cur _; simp [runWorkflowSteps]
  | cons step rest ih =>
    intro i recs inv cur hall
    have hs : m.stepThrows step = false := hall step (by simp)
    obtain ⟨res, call, heq⟩ := executeWorkflowStep_of_ok m step (remote i) hs
    have hrec := ih (i + 1) (recs ++ [⟨i, step.name, res⟩]) (inv ++ [call]) i
      (fun s hs2 => hall s (by simp [hs2]))
    simp only [runWorkflowSteps, heq]
    refine ⟨hrec.1, ?_, ?_⟩
    · rw [hrec.2.1]; simp; omega
    · rw [hrec.2.2]; simp; omega

theorem runWorkflowSteps_throws (m : MCPClientManager) (remote : Nat → Except String JVal) :
    ∀ (pre : List WStep) (bad : WStep) (post : List WStep) (i : Nat)
      (recs : List StepRecord) (inv : List Invocation) (cur : Nat),
    (∀ s ∈ pre, m.stepThrows s = false) → m.stepThrows bad = true →
    ∃ e, (runWorkflowSteps m remote (pre ++ bad :: post) i recs inv cur).failure
            = some (i + pre.length, e) ∧
         (runWorkflowSteps m remote (pre ++ bad :: post) i recs inv cur).invocations.length
            = inv.length + pre.length := by
  intro pre
  induction pre with
  | nil =>
    intro bad post i recs inv cur _ hbad
    obtain ⟨e, heq⟩ := executeWorkflowStep_of_throws m bad (remote i) hbad
    refine ⟨e, ?_, ?_⟩ <;> simp [runWorkflowSteps, heq]
  | cons step pre ih =>
    intro bad post i recs inv cur hall hbad
    have hs : m.stepThrows step = false := hall step (by simp)
    obtain ⟨res, call, heq⟩ := executeWorkflowStep_of_ok m step (remote i) hs
    obtain ⟨e, h1, h2⟩ := ih bad post (i + 1) (recs ++ [⟨i, step.name, res⟩])
      (inv ++ [call]) i (fun s hs2 => hall s (by simp [hs2])) hbad
    refine ⟨e, ?_, ?_⟩
    · simp only [List.cons_append, runWorkflowSteps, heq]
      have harith : i + (step :: pre).length = i + 1 + pre.length := by
        simp [List.length_cons]; omega
      rw [harith]
      exact h1
    · simp only [List.cons_append, runWorkflowSteps, heq]
      have harith2 : inv.length + (step :: pre).length = (inv ++ [call]).length + pre.length := by
        simp [List.length_append, List.length_cons]; omega
      rw [harith2]
      exact h2

/-- Concrete registry for the C1 scenario: one connected client `c`
advertising the three tools. -/
def mgrC1 : MCPClientManager :=
  ⟨[("c", ⟨"c", true, ["tA", "tB", "tC"], [], none⟩)]⟩

/-- The C1 steps `[A(ok), B(fails), C(ok)]`, all explicitly bound to
client `c`. -/
def stepsC1 : List WStep :=
  [⟨"A", some "c", "tA", [], [], none⟩,
   ⟨"B", some "c", "tB", [], [], none⟩,
   ⟨"C", some "c", "tC", [], [], none⟩]

/-- Remote outcomes for the C1 scenario: step B's invocation fails
remotely (a `success = false` result), A and C succeed. -/
def remoteC1 : Nat → Except String JVal :=
  fun i => if i = 1 then .error "boom" else .ok (.num 1)

/-- Counterexample for **C1** as stated: with steps `[A(ok), B(fails),
C(ok)]` — B's remote call fails, so its result has `success = false` —
`executeWorkflow` still invokes C (three network calls are made,
including `tC`), records B's failed result, and finishes with
`status = completed` and `failedStep = none`; the claim demanded that C
is never invoked, `status = failed`, and `failedStepIndex = 1`. -/
theorem workflow_haltOnFailure_counterexample :
    (mgrC1.executeWorkflow 1000 stepsC1 remoteC1).exec.status = "completed" ∧
    (mgrC1.executeWorkflow 1000 stepsC1 remoteC1).exec.failedStep = none ∧
    (mgrC1.executeWorkflow 1000 stepsC1 remoteC1).invocations.map
      (fun v => v.toolName) = ["tA", "tB", "tC"] ∧
    (mgrC1.executeWorkflow 1000 stepsC1 remoteC1).exec.steps.map
      (fun r => r.result.success) = [true, false, true] := by
  refine ⟨rfl, rfl, rfl, rfl⟩

/-- **C1 (amended)** — in `executeWorkflow`, only a *thrown* step error
(target client missing, not connected, or tool undiscovered) halts the
run: it sets `status = failed`, records the step's index in
`failedStep` and the message in `error`, and no step at a later array
position performs a network call.  A step result with `success = false`
does not halt: it is recorded and every step runs, the workflow
finishing `completed` (and `executeDistributedWorkflow`, proved over
the same step loop in the C5/C6 development, likewise continues past
`success = false` results). -/
theorem executeWorkflow_haltsOnThrow (m : MCPClientManager) (now : Nat)
    (steps : List WStep) (remote : Nat → Except String JVal) :
    ((∀ s ∈ steps, m.stepThrows s = false) →
      (m.executeWorkflow now steps remote).exec.status = "completed" ∧
      (m.executeWorkflow now steps remote).exec.failedStep = none ∧
      (m.executeWorkflow now steps remote).invocations.length = steps.length) ∧
    (∀ pre bad post, steps = pre ++ bad :: post →
      (∀ s ∈ pre, m.stepThrows s = false) → m.stepThrows bad = true →
      (m.executeWorkflow now steps remote).exec.status = "failed" ∧
      (m.executeWorkflow now steps remote).exec.failedStep = some pre.length ∧
      (m.executeWorkflow now steps remote).invocations.length = pre.length) := by
  constructor
  · intro hall
    obtain ⟨h1, h2, h3⟩ := runWorkflowSteps_all_ok m remote steps 0 [] [] 0 hall
    unfold MCPClientManager.executeWorkflow
    cases hr : runWorkflowSteps m remote steps 0 [] [] 0 with
    | mk fail recs inv cur =>
      rw [hr] at h1 h2
      simp only at h1 h2
      subst h1
      simpa using h2
  · intro pre bad post hsteps hpre hbad
    subst hsteps
    obtain ⟨e, h1, h2⟩ := runWorkflowSteps_throws m remote pre bad post 0 [] [] 0 hpre hbad
    unfold MCPClientManager.executeWorkflow
    cases hr : runWorkflowSteps m remote (pre ++ bad :: post) 0 [] [] 0 with
    | mk fail recs inv cur =>
      rw [hr] at h1 h2
      simp only at h1 h2
      subst h1
      simpa using h2

/-- Witness for C1 (amended): in the registry of the C1 scenario, a
workflow whose second step names an unknown client halts there with one
invocation performed, and the all-resolvable workflow `stepsC1`
completes with three invocations. -/
theorem executeWorkflow_haltsOnThrow_witness :
    ((mgrC1.executeWorkflow 1000 stepsC1 remoteC1).exec.status = "completed" ∧
     (mgrC1.executeWorkflow 1000 stepsC1 remoteC1).exec.failedStep = none ∧
     (mgrC1.executeWorkflow 1000 stepsC1 remoteC1).invocations.length = 3) ∧
    ((mgrC1.executeWorkflow 1000
        [⟨"A", some "c", "tA", [], [], none⟩, ⟨"B", some "zz", "tB", [], [], none⟩]
        remoteC1).exec.status = "failed" ∧
     (mgrC1.executeWorkflow 1000
        [⟨"A", some "c", "tA", [], [], none⟩, ⟨"B", some "zz", "tB", [], [], none⟩]
        remoteC1).exec.failedStep = some 1 ∧
     (mgrC1.executeWorkflow 1000
        [⟨"A", some "c", "tA", [], [], none⟩, ⟨"B", some "zz", "tB", [], [], none⟩]
        remoteC1).invocations.length = 1) := by
  constructor
  · exact (executeWorkflow_haltsOnThrow mgrC1 1000 stepsC1 remoteC1).1 (by decide)
  · exact (executeWorkflow_haltsOnThrow mgrC1 1000
      [⟨"A", some "c", "tA", [], [], none⟩, ⟨"B", some "zz", "tB", [], [], none⟩]
      remoteC1).2 [⟨"A", some "c", "tA", [], [], none⟩] ⟨"B", some "zz", "tB", [], [], none⟩ []
      rfl (by decide) (by decide)

/-- `findSuitableClientForTool` (schema.ts:716-723): the first client in
registration (Map-insertion) order whose discovered tool list contains
the tool — the `connected` flag is not consulted. -/
def MCPClientManager.findSuitableClientForTool (m : MCPClientManager) (toolName : String) :
    Option String :=
  (m.clients.find? (fun p => p.2.tools.contains toolName)).map (fun p => p.1)

/-- `selectBestClientForStep` (schema.ts:725-734): throws when no client
advertises the tool. -/
def MCPClientManager.selectBestClientForStep (m : MCPClientManager) (step : WStep) :
    Except String String :=
  match m.findSuitableClientForTool step.toolName with
  | none => .error s!"No suitable client found for tool: {step.toolName}"
  | some cid => .ok cid

/-- `step.clientId || this.selectBestClientForStep(step)`
(schema.ts:641). -/
def MCPClientManager.resolveStepClient (m : MCPClientManager) (step : WStep) :
    Except String String :=
  match step.clientId with
  | some cid => .ok cid
  | none => m.selectBestClientForStep step

/-- JS `Set` insertion keeping first-insertion order. -/
def addUnique (acc : List String) (cid : String) : List String :=
  if acc.contains cid then acc else acc ++ [cid]

/-- `analyzeWorkflowRequirements` (schema.ts:698-714): the set of peer
ids referenced by the steps — explicit `clientId`, or the first
registered client advertising the step's tool; a step whose tool no
client advertises contributes nothing. -/
def MCPClientManager.analyzeWorkflowRequirements (m : MCPClientManager)
    (steps : List WStep) : List String :=
  steps.foldl (fun acc step =>
    match step.clientId with
    | some cid => addUnique acc cid
    | none =>
      match m.findSuitableClientForTool step.toolName with
      | some cid => addUnique acc cid
      | none => acc) []

/-- The pre-flight availability test (schema.ts:618-619):
`!client || !client.getClientInfo().connected` negated. -/
def MCPClientManager.clientAvailable (m : MCPClientManager) (cid : String) : Bool :=
  match m.clients.lookup cid with
  | none => false
  | some c => c.connected

/-- JS truthiness of the optional `outputTo` string
(schema.ts:658 `if (step.outputTo && result.success)`). -/
def truthyStr : Option String → Bool
  | none => false
  | some s => !(s == "")

/-- The dependency-propagation pass (schema.ts:660-667): every later
step whose `dependsOn` contains the finished step's name gets the
result's data spread into its parameter map under the `outputTo` key
(`{...parameters, [outputTo]: data}` — prepending overrides, see
`Params`). -/
def propagateOutput (stepName outKey : String) (d : JVal) (later : List WStep) : List WStep :=
  later.map (fun s =>
    if s.dependsOn.contains stepName then
      { s with parameters := (outKey, d) :: s.parameters }
    else s)

/-- One value of the distributed execution's `results` map
(schema.ts:650-655). -/
structure DistStepRecord where
  clientId : String
  toolName : String
  result : MCPToolResult
deriving DecidableEq, Repr

/-- Outcome of the `executeDistributedWorkflow` step loop. -/
structure DistLoopOut where
  failure : Option String
  results : List (String × DistStepRecord)
  invocations : List Invocation
deriving DecidableEq, Repr

/-- The `for` loop of `executeDistributedWorkflow` (schema.ts:639-669):
resolve the step's client, invoke the tool with correlation id
`${wfId}-step-${i}`, record the result under `step_${i}`, and — when
`outputTo` is truthy and the result succeeded — propagate the data into
the remaining steps before continuing.  As in `executeWorkflow`, only a
thrown error aborts the loop. -/
def runDistSteps (m : MCPClientManager) (wfId : String) (remote : Nat → Except String JVal) :
    List WStep → Nat → List (String × DistStepRecord) → List Invocation → DistLoopOut
  | [], _, results, inv => ⟨none, results, inv⟩
  | step :: rest, i, results, inv =>
    match m.resolveStepClient step with
    | .error e => ⟨some e, results, inv⟩
    | .ok cid =>
      match m.invokeToolOnClient cid step.toolName step.parameters
          (some s!"{wfId}-step-{i}") (remote i) with
      | (.error e, inv2) => ⟨some e, results, inv ++ inv2⟩
      | (.ok r, inv2) =>
          runDistSteps m wfId remote
            (if truthyStr step.outputTo && r.success then
              propagateOutput step.name (step.outputTo.getD "") (r.data.getD .null) rest
            else rest)
            (i + 1) (results ++ [(s!"step_{i}", ⟨cid, step.toolName, r⟩)]) (inv ++ inv2)
termination_by steps _ _ _ => steps.length
decreasing_by
  simp_wf
  split <;> simp [propagateOutput]

/-- The distributed execution record (schema.ts:625-634). -/
structure DistExecution where
  id : String
  requiredClients : List String
  status : String
  results : List (String × DistStepRecord)
  error : Option String
deriving DecidableEq, Repr

/-- Result of one `executeDistributedWorkflow` call: the returned id or
rethrown error, the record left in `workflowExecutions` (none when the
pre-flight check throws before the record is created, schema.ts:617-636),
and the network calls performed. -/
structure DistRunOutput where
  returned : Except String String
  stored : Option DistExecution
  invocations : List Invocation
deriving Repr

/-- `executeDistributedWorkflow` (schema.ts:608-696): pre-flight checks
every required client in order and throws at the first missing or
disconnected one — before the execution record is stored and before any
step runs; otherwise the step loop executes and the record ends
`completed`, or `failed` with the thrown error. -/
def MCPClientManager.executeDistributedWorkflow (m : MCPClientManager) (now : Nat)
    (steps : List WStep) (remote : Nat → Except String JVal) : DistRunOutput :=
  match (m.analyzeWorkflowRequirements steps).find? (fun cid => !(m.clientAvailable cid)) with
  | some cid => ⟨.error s!"Required client {cid} is not available", none, []⟩
  | none =>
    match runDistSteps m s!"distributed-workflow-{now}" remote steps 0 [] [] with
    | ⟨none, results, inv⟩ =>
        ⟨.ok s!"distributed-workflow-{now}",
         some ⟨s!"distributed-workflow-{now}", m.analyzeWorkflowRequirements steps,
           "completed", results, none⟩, inv⟩
    | ⟨some e, results, inv⟩ =>
        ⟨.error e,
         some ⟨s!"distributed-workflow-{now}", m.analyzeWorkflowRequirements steps,
           "failed", results, some e⟩, inv⟩

/-- **C5** — pre-flight validation of `executeDistributedWorkflow`: if
any peer id in the computed requirement set (explicit `clientId`, or
the first registered client advertising the step's tool) is missing or
not connected, the whole execution fails immediately with no record
stored, zero steps executed and zero tool invocations. -/
theorem distPreflight_aborts (m : MCPClientManager) (now : Nat) (steps : List WStep)
    (remote : Nat → Except String JVal) (cid : String)
    (hmem : cid ∈ m.analyzeWorkflowRequirements steps)
    (hbad : m.clientAvailable cid = false) :
    (m.executeDistributedWorkflow now steps remote).stored = none ∧
    (m.executeDistributedWorkflow now steps remote).invocations = [] ∧
    (m.executeDistributedWorkflow now steps remote).returned.isOk = false := by
  have hfind : ∃ bad,
      (m.analyzeWorkflowRequirements steps).find? (fun c => !(m.clientAvailable c)) = some bad := by
    cases hf2 : (m.analyzeWorkflowRequirements steps).find? (fun c => !(m.clientAvailable c)) with
    | none =>
      exfalso
      have := List.find?_eq_none.mp hf2 cid hmem
      simp [hbad] at this
    | some bad => exact ⟨bad, rfl⟩
  obtain ⟨bad, hfind2⟩ := hfind
  refine ⟨?_, ?_, ?_⟩ <;>
    simp [MCPClientManager.executeDistributedWorkflow, hfind2, Except.isOk, Except.toBool]

/-- Witness for C5: a single-step workflow explicitly bound to the
registered but disconnected client `d` aborts in pre-flight with no
stored record and no invocations. -/
theorem distPreflight_aborts_witness :
    (MCPClientManager.executeDistributedWorkflow
        ⟨[("d", ⟨"d", false, ["t"], [], none⟩)]⟩ 5
        [⟨"s", some "d", "t", [], [], none⟩] (fun _ => .ok .null)).stored = none ∧
    (MCPClientManager.executeDistributedWorkflow
        ⟨[("d", ⟨"d", false, ["t"], [], none⟩)]⟩ 5
        [⟨"s", some "d", "t", [], [], none⟩] (fun _ => .ok .null)).invocations = [] ∧
    (MCPClientManager.executeDistributedWorkflow
        ⟨[("d", ⟨"d", false, ["t"], [], none⟩)]⟩ 5
        [⟨"s", some "d", "t", [], [], none⟩] (fun _ => .ok .null)).returned.isOk = false :=
  distPreflight_aborts ⟨[("d", ⟨"d", false, ["t"], [], none⟩)]⟩ 5
    [⟨"s", some "d", "t", [], [], none⟩] (fun _ => .ok .null) "d" (by decide) (by decide)

/-- **C6** — dependency propagation in `executeDistributedWorkflow`:
when the current step resolves to `cid`, its invocation returns a
result with `success = true`, and its `outputTo` is a non-empty label
`k`, the loop continues on the *propagated* remaining steps (so the
write happens before any later step executes), and in the propagated
list every step whose `dependsOn` contains the finished step's name has
the result's data under key `k` in its parameter map. -/
theorem distPropagation (m : MCPClientManager) (wfId : String)
    (remote : Nat → Except String JVal) (step : WStep) (rest : List WStep) (i : Nat)
    (results : List (String × DistStepRecord)) (inv : List Invocation)
    (cid : String) (r : MCPToolResult) (calls : List Invocation) (k : String)
    (hres : m.resolveStepClient step = .ok cid)
    (hinv : m.invokeToolOnClient cid step.toolName step.parameters
        (some s!"{wfId}-step-{i}") (remote i) = (.ok r, calls))
    (hsucc : r.success = true) (hout : step.outputTo = some k) (hk : k ≠ "") :
    (runDistSteps m wfId remote (step :: rest) i results inv =
      runDistSteps m wfId remote
        (propagateOutput step.name k (r.data.getD .null) rest) (i + 1)
        (results ++ [(s!"step_{i}", ⟨cid, step.toolName, r⟩)]) (inv ++ calls)) ∧
    (∀ s2 ∈ propagateOutput step.name k (r.data.getD .null) rest,
      step.name ∈ s2.dependsOn →
      s2.parameters.lookup k = some (r.data.getD .null)) := by
  constructor
  · have htr : truthyStr step.outputTo = true := by
      simp [truthyStr, hout, hk]
    have hgd : step.outputTo.getD "" = k := by simp [hout]
    simp only [runDistSteps, hres, hinv, htr, hsucc, Bool.and_self, if_pos, hgd]
  · intro s2 hmem hdep
    obtain ⟨s, hs, hmap⟩ := List.mem_map.mp hmem
    by_cases hc : s.dependsOn.contains step.name
    · rw [if_pos hc] at hmap
      subst hmap
      simp [List.lookup]
    · rw [if_neg hc] at hmap
      subst hmap
      exact absurd hdep (by simpa using hc)

/-- Witness for C6: the A/B scenario — step A (`outputTo = "r"`)
succeeds with data 42; the loop continues on the propagated tail, and
the propagated B (`dependsOn = ["A"]`) carries `r = 42` in its
parameters. -/
theorem distPropagation_witness :
    (runDistSteps ⟨[("c", ⟨"c", true, ["tA", "tB"], [], none⟩)]⟩ "wf"
        (fun _ => .ok (.num 42))
        [⟨"A", some "c", "tA", [], [], some "r"⟩, ⟨"B", some "c", "tB", [], ["A"], none⟩]
        0 [] [] =
      runDistSteps ⟨[("c", ⟨"c", true, ["tA", "tB"], [], none⟩)]⟩ "wf"
        (fun _ => .ok (.num 42))
        (propagateOutput "A" "r" ((some (JVal.num 42)).getD .null)
          [⟨"B", some "c", "tB", [], ["A"], none⟩]) 1
        [("step_0", ⟨"c", "tA", ⟨true, some (.num 42), none, 0, some "wf-step-0"⟩⟩)]
        ([] ++ [⟨"c", "tA", [], some "wf-step-0"⟩])) ∧
    ((⟨"B", some "c", "tB", [("r", JVal.num 42)], ["A"], none⟩ : WStep).parameters.lookup "r" =
      some ((some (JVal.num 42)).getD .null)) := by
  have h := distPropagation ⟨[("c", ⟨"c", true, ["tA", "tB"], [], none⟩)]⟩ "wf"
    (fun _ => .ok (.num 42)) ⟨"A", some "c", "tA", [], [], some "r"⟩
    [⟨"B", some "c", "tB", [], ["A"], none⟩] 0 [] [] "c"
    ⟨true, some (.num 42), none, 0, some "wf-step-0"⟩ [⟨"c", "tA", [], some "wf-step-0"⟩] "r"
    rfl rfl rfl rfl (by decide)
  exact ⟨h.1, h.2 ⟨"B", some "c", "tB", [("r", JVal.num 42)], ["A"], none⟩
    (by decide) (by decide)⟩

/-- Registry for the C8 counterexample: the *disconnected* client `w`
advertising `ping` registered first, then two connected advertisers. -/
def mgrC8 : MCPClientManager :=
  ⟨[("w", ⟨"w", false, ["ping"], [], none⟩),
    ("x", ⟨"x", true, ["ping"], [], none⟩),
    ("z", ⟨"z", true, ["ping"], [], none⟩)]⟩

/-- Counterexample for **C8** as stated: `ping` is advertised by two
connected peers (`x`, `z`), yet resolution selects `w` — the first
registered advertiser — which is *not* connected, contradicting the
claim's "the selected peer is connected". -/
theorem toolResolution_counterexample :
    mgrC8.findSuitableClientForTool "ping" = some "w" ∧
    mgrC8.clientAvailable "w" = false ∧
    (mgrC8.clients.filter (fun p => p.2.connected && p.2.tools.contains "ping")).length = 2 := by
  decide

theorem find?_eq_some_of_split {α : Type} (p : α → Bool) :
    ∀ (pre : List α) (x : α) (post : List α), (∀ a ∈ pre, p a = false) → p x = true →
      (pre ++ x :: post).find? p = some x := by
  intro pre
  induction pre with
  | nil => intro x post _ hx; simp [List.find?, hx]
  | cons a pre ih =>
    intro x post hall hx
    have ha : p a = false := hall a (by simp)
    simp only [List.cons_append, List.find?, ha]
    exact ih x post (fun b hb => hall b (by simp [hb])) hx

/-- **C8 (amended)** — with no explicit `clientId`, resolution picks
the first peer in registration order whose discovered tool list
contains the tool, *regardless of that peer's connection state*; in
particular with connected `x` (advertising `ping`) registered before
connected `y` (not advertising it), the step resolves to `x`. -/
theorem toolResolution_first_registered (m : MCPClientManager) (t : String)
    (pre post : List (String × MCPClientInstance)) (cid : String) (c : MCPClientInstance)
    (hsplit : m.clients = pre ++ (cid, c) :: post)
    (hpre : ∀ p ∈ pre, p.2.tools.contains t = false)
    (hc : c.tools.contains t = true) :
    m.findSuitableClientForTool t = some cid := by
  unfold MCPClientManager.findSuitableClientForTool
  rw [hsplit, find?_eq_some_of_split (fun p => p.2.tools.contains t) pre (cid, c) post hpre hc]
  rfl

/-- Witness for C8 (amended): the spec's scenario — connected `x`
advertising `ping`, connected `y` not advertising it — resolves to
`x`. -/
theorem toolResolution_first_registered_witness :
    MCPClientManager.findSuitableClientForTool
      ⟨[("x", ⟨"x", true, ["ping"], [], none⟩), ("y", ⟨"y", true, [], [], none⟩)]⟩ "ping" =
      some "x" :=
  toolResolution_first_registered
    ⟨[("x", ⟨"x", true, ["ping"], [], none⟩), ("y", ⟨"y", true, [], [], none⟩)]⟩ "ping"
    [] [("y", ⟨"y", true, [], [], none⟩)] "x" ⟨"x", true, ["ping"], [], none⟩
    rfl (by simp) (by decide)

/-- JS `Map.set` on an association list: replace in place when the key
exists (keeping its position), append otherwise. -/
def mapSet {α : Type} (mp : List (String × α)) (k : String) (v : α) : List (String × α) :=
  if (mp.lookup k).isSome then mp.map (fun p => if p.1 = k then (k, v) else p)
  else mp ++ [(k, v)]

/-- `this.workflowExecutions.set(workflowId, execution)`
(schema.ts:480) for the record built by one `executeWorkflow` run. -/
def storeExecution (mp : List (String × WorkflowExecution)) (out : WorkflowRunOutput) :
    List (String × WorkflowExecution) :=
  mapSet mp out.exec.id out.exec

theorem lookup_map_replace {α : Type} (k : String) (v : α) :
    ∀ (mp : List (String × α)), (mp.lookup k).isSome = true →
      ((mp.map (fun p => if p.1 = k then (k, v) else p)).lookup k = some v) := by
  intro mp
  induction mp with
  | nil => intro h; simp [List.lookup] at h
  | cons a mp ih =>
    obtain ⟨a1, a2⟩ := a
    intro h
    by_cases hk : a1 = k
    · subst hk
      simp [List.lookup_cons]
    · have hne : (k == a1) = false := beq_false_of_ne (fun he => hk he.symm)
      have tail := ih (by simpa only [List.lookup, hne] using h)
      simp [List.lookup_cons, hne, hk, tail]

theorem lookup_append_new {α : Type} (k : String) (v : α) :
    ∀ (mp : List (String × α)), (mp.lookup k).isSome = false →
      ((mp ++ [(k, v)]).lookup k = some v) := by
  intro mp
  induction mp with
  | nil => intro _; simp [List.lookup]
  | cons a mp ih =>
    obtain ⟨a1, a2⟩ := a
    intro h
    cases hk : (k == a1) with
    | true =>
      exfalso
      rw [show ((a1, a2) :: mp).lookup k = some a2 from by simp [List.lookup, hk]] at h
      simp at h
    | false =>
      have tail := ih (by simpa only [List.lookup, hk] using h)
      simp only [List.cons_append, List.lookup, hk]
      exact tail

theorem lookup_mapSet_self {α : Type} (mp : List (String × α)) (k : String) (v : α) :
    (mapSet mp k v).lookup k = some v := by
  unfold mapSet
  by_cases h : (mp.lookup k).isSome
  · rw [if_pos h]; exact lookup_map_replace k v mp h
  · rw [if_neg h]
    exact lookup_append_new k v mp (Bool.eq_false_iff.mpr (fun hh => h hh))

/-- Counterexample for **C7** as stated: two distinct submissions in
the same millisecond (`Date.now() = 111`) — an empty workflow and a
one-step workflow whose step names no client — receive the *same* id
`workflow-111` although their execution records differ, and storing
both leaves a single entry holding only the second record: the first
execution's record is overwritten. -/
theorem workflowId_uniqueness_counterexample :
    ((⟨[]⟩ : MCPClientManager).executeWorkflow 111 [] (fun _ => .ok .null)).exec.id =
      ((⟨[]⟩ : MCPClientManager).executeWorkflow 111
        [⟨"A", none, "t", [], [], none⟩] (fun _ => .ok .null)).exec.id ∧
    ((⟨[]⟩ : MCPClientManager).executeWorkflow 111 [] (fun _ => .ok .null)).exec ≠
      ((⟨[]⟩ : MCPClientManager).executeWorkflow 111
        [⟨"A", none, "t", [], [], none⟩] (fun _ => .ok .null)).exec ∧
    storeExecution
      (storeExecution [] ((⟨[]⟩ : MCPClientManager).executeWorkflow 111 [] (fun _ => .ok .null)))
      ((⟨[]⟩ : MCPClientManager).executeWorkflow 111
        [⟨"A", none, "t", [], [], none⟩] (fun _ => .ok .null)) =
      [("workflow-111",
        ((⟨[]⟩ : MCPClientManager).executeWorkflow 111
          [⟨"A", none, "t", [], [], none⟩] (fun _ => .ok .null)).exec)] := by
  refine ⟨rfl, by decide, rfl⟩

theorem executeWorkflow_id_eq (m : MCPClientManager) (now : Nat) (steps : List WStep)
    (r : Nat → Except String JVal) :
    (m.executeWorkflow now steps r).exec.id = s!"workflow-{now}" := by
  unfold MCPClientManager.executeWorkflow
  rcases hr : runWorkflowSteps m r steps 0 [] [] 0 with ⟨fail, recs, inv, cur⟩
  rcases fail with _ | ⟨i, e⟩ <;> simp [hr]

theorem executeDistributedWorkflow_stored_id (m : MCPClientManager) (now : Nat)
    (steps : List WStep) (r : Nat → Except String JVal) (st : DistExecution)
    (hst : (m.executeDistributedWorkflow now steps r).stored = some st) :
    st.id = s!"distributed-workflow-{now}" := by
  unfold MCPClientManager.executeDistributedWorkflow at hst
  rcases hf : (m.analyzeWorkflowRequirements steps).find?
      (fun cid => !(m.clientAvailable cid)) with _ | cid
  · rw [hf] at hst
    rcases hd : runDistSteps m s!"distributed-workflow-{now}" r steps 0 [] [] with
      ⟨fail, results, inv⟩
    rw [hd] at hst
    rcases fail with _ | e
    · have h2 : (⟨s!"distributed-workflow-{now}", m.analyzeWorkflowRequirements steps,
          "completed", results, none⟩ : DistExecution) = st := Option.some.inj hst
      rw [← h2]
    · have h2 : (⟨s!"distributed-workflow-{now}", m.analyzeWorkflowRequirements steps,
          "failed", results, some e⟩ : DistExecution) = st := Option.some.inj hst
      rw [← h2]
  · rw [hf] at hst
    simp at hst

/-- **C7 (amended)** — an execution id is determined by the operation
and the submission timestamp alone (`workflow-${Date.now()}` /
`distributed-workflow-${Date.now()}`): two `executeWorkflow`
submissions in the same millisecond receive the same id — the later
record overwriting the earlier in the executions map — while ids never
collide across the two operations (distinct prefixes). -/
theorem workflowId_per_timestamp (m1 m2 : MCPClientManager) (now now2 : Nat)
    (steps1 steps2 : List WStep) (r1 r2 : Nat → Except String JVal)
    (mp : List (String × WorkflowExecution)) :
    ((m1.executeWorkflow now steps1 r1).exec.id =
      (m2.executeWorkflow now steps2 r2).exec.id) ∧
    ((storeExecution (storeExecution mp (m1.executeWorkflow now steps1 r1))
        (m2.executeWorkflow now steps2 r2)).lookup
      (m1.executeWorkflow now steps1 r1).exec.id =
      some (m2.executeWorkflow now steps2 r2).exec) ∧
    (∀ st, (m2.executeDistributedWorkflow now2 steps2 r2).stored = some st →
      st.id ≠ (m1.executeWorkflow now steps1 r1).exec.id) := by
  have hid1 := executeWorkflow_id_eq m1 now steps1 r1
  have hid2 := executeWorkflow_id_eq m2 now steps2 r2
  refine ⟨hid1.trans hid2.symm, ?_, ?_⟩
  · rw [hid1, ← hid2]
    exact lookup_mapSet_self _ _ _
  · intro st hst h
    have hd := executeDistributedWorkflow_stored_id m2 now2 steps2 r2 st hst
    rw [hid1, hd] at h
    have h1 : (s!"distributed-workflow-{now2}" : String).data.head? = some 'd' := rfl
    have h2 : (s!"workflow-{now}" : String).data.head? = some 'w' := rfl
    rw [h] at h1
    rw [h2] at h1
    exact absurd h1 (by decide)

/-- Witness for C7 (amended): at timestamp 7, the empty and the
one-step submissions share id `workflow-7`, storing both keeps only the
second record, and the record stored by a distributed run at timestamp
5 has a different id. -/
theorem workflowId_per_timestamp_witness :
    (((⟨[]⟩ : MCPClientManager).executeWorkflow 7 [] (fun _ => .ok .null)).exec.id =
      ((⟨[]⟩ : MCPClientManager).executeWorkflow 7
        [⟨"A", none, "t", [], [], none⟩] (fun _ => .ok .null)).exec.id) ∧
    ((storeExecution
        (storeExecution [] ((⟨[]⟩ : MCPClientManager).executeWorkflow 7 [] (fun _ => .ok .null)))
        ((⟨[]⟩ : MCPClientManager).executeWorkflow 7
          [⟨"A", none, "t", [], [], none⟩] (fun _ => .ok .null))).lookup
      ((⟨[]⟩ : MCPClientManager).executeWorkflow 7 [] (fun _ => .ok .null)).exec.id =
      some ((⟨[]⟩ : MCPClientManager).executeWorkflow 7
        [⟨"A", none, "t", [], [], none⟩] (fun _ => .ok .null)).exec) ∧
    (("distributed-workflow-5" : String) ≠
      ((⟨[]⟩ : MCPClientManager).executeWorkflow 7 [] (fun _ => .ok .null)).exec.id) := by
  refine ⟨?_, ?_, ?_⟩
  · exact (workflowId_per_timestamp ⟨[]⟩ ⟨[]⟩ 7 5 [] [⟨"A", none, "t", [], [], none⟩]
      (fun _ => .ok .null) (fun _ => .ok .null) []).1
  · exact (workflowId_per_timestamp ⟨[]⟩ ⟨[]⟩ 7 5 [] [⟨"A", none, "t", [], [], none⟩]
      (fun _ => .ok .null) (fun _ => .ok .null) []).2.1
  · have hst3 : ((⟨[]⟩ : MCPClientManager).executeDistributedWorkflow 5
        [⟨"A", none, "t", [], [], none⟩] (fun _ => .ok .null)).stored =
        some ⟨"distributed-workflow-5", [], "failed", [],
          some "No suitable client found for tool: t"⟩ := by
      simp [MCPClientManager.executeDistributedWorkflow, runDistSteps,
        MCPClientManager.analyzeWorkflowRequirements, MCPClientManager.resolveStepClient,
        MCPClientManager.selectBestClientForStep, MCPClientManager.findSuitableClientForTool,
        MCPClientManager.clientAvailable, List.find?]
      exact ⟨rfl, rfl⟩
    exact (workflowId_per_timestamp ⟨[]⟩ ⟨[]⟩ 7 5 [] [⟨"A", none, "t", [], [], none⟩]
      (fun _ => .ok .null) (fun _ => .ok .null) []).2.2
      ⟨"distributed-workflow-5", [], "failed", [],
        some "No suitable client found for tool: t"⟩ hst3

/-- `MCPClientConfig` (schema.ts:125-134), the fields relevant to
health checking. -/
structure MCPClientConfig where
  id : String
  name : String
  baseUrl : String
  apiKey : Option String
  websocketUrl : Option String
  healthCheckInterval : Option Nat
deriving Repr

/-- JS truthiness of the optional numeric interval
(schema.ts:176 `if (config.healthCheckInterval)`): `undefined` and `0`
are falsy. -/
def truthyNat : Option Nat → Bool
  | none => false
  | some n => !(n == 0)

/-- The `MCPClientInstance` constructor (schema.ts:161-179): initial
state is disconnected with empty capability sets, and the periodic
health-check task starts right in the constructor — before any
`connect` attempt — exactly when the configured interval is truthy.
Returns the initial state and whether the health-check timer runs. -/
def mkClientInstance (cfg : MCPClientConfig) : MCPClientInstance × Bool :=
  (⟨cfg.id, false, [], [], none⟩, truthyNat cfg.healthCheckInterval)

/-- One tick of the health-check timer (schema.ts:404-423): `probeOk`
is the outcome of `testHttpConnection` (primary then fallback health
endpoint), `now` the current time.  On success `lastHealthCheck` is set
and emitted; on failure a `healthCheck` event is emitted with a fresh
timestamp but `lastHealthCheck` is left unchanged. -/
def MCPClientInstance.healthTick (c : MCPClientInstance) (probeOk : Bool) (now : Nat) :
    MCPClientInstance × ClientEvent :=
  if probeOk then
    ({ c with lastHealthCheck := some now }, .healthCheckEv c.id true now)
  else
    (c, .healthCheckEv c.id false now)

/-- Counterexample for **C9** as stated: an unhealthy tick at time 5
emits a `healthCheck` event carrying timestamp 5, but the client's
`lastHealthCheck` stays `none` — the emitted timestamp is *not*
recorded as `lastHealthCheck` on failing ticks. -/
theorem healthTick_timestamp_counterexample :
    ((⟨"a", false, [], [], none⟩ : MCPClientInstance).healthTick false 5).2 =
      .healthCheckEv "a" false 5 ∧
    ((⟨"a", false, [], [], none⟩ : MCPClientInstance).healthTick false 5).1.lastHealthCheck
      = none ∧
    (none : Option Nat) ≠ some 5 := by
  decide

/-- **C9 (amended)** — the health-check task is started by the
constructor, before any connect attempt (the fresh state is still
disconnected), exactly when the configured interval is truthy; every
tick — healthy or not — emits a `healthCheck` event carrying the
current time; but only a *healthy* tick records that timestamp as
`lastHealthCheck` — an unhealthy tick leaves `lastHealthCheck`
unchanged. -/
theorem healthTick_behaviour (cfg : MCPClientConfig) (c : MCPClientInstance) (now : Nat) :
    ((mkClientInstance cfg).1.connected = false) ∧
    ((mkClientInstance cfg).2 = true ↔ ∃ n, cfg.healthCheckInterval = some n ∧ n ≠ 0) ∧
    (∀ probeOk, ∃ healthy, (c.healthTick probeOk now).2 = .healthCheckEv c.id healthy now) ∧
    ((c.healthTick true now).1.lastHealthCheck = some now) ∧
    ((c.healthTick false now).1.lastHealthCheck = c.lastHealthCheck) := by
  refine ⟨rfl, ?_, fun probeOk => ?_, ?_, ?_⟩
  · cases hc : cfg.healthCheckInterval with
    | none => simp [mkClientInstance, truthyNat, hc]
    | some n => simp [mkClientInstance, truthyNat, hc]
  · cases probeOk with
    | true => exact ⟨true, by simp [MCPClientInstance.healthTick]⟩
    | false => exact ⟨false, by simp [MCPClientInstance.healthTick]⟩
  · simp [MCPClientInstance.healthTick]
  · simp [MCPClientInstance.healthTick]

/-- The engine's `workflowExecutions` map holds *references* to mutable
execution objects (JS object semantics): `heap` is the object store
(address = index) and `table` maps workflow ids to addresses. -/
structure WorkflowStore where
  heap : List WorkflowExecution
  table : List (String × Nat)
deriving Repr

/-- `getWorkflowStatus` (schema.ts:560-562):
`return this.workflowExecutions.get(workflowId)` hands back the stored
reference to the mutable execution object — not a copy — modelled as
the object's address. -/
def WorkflowStore.getWorkflowStatus (st : WorkflowStore) (wfId : String) : Option Nat :=
  st.table.lookup wfId

/-- Reading the object a reference points to. -/
def WorkflowStore.deref (st : WorkflowStore) (a : Nat) : Option WorkflowExecution :=
  st.heap.get? a

/-- An in-place mutation of the execution object at address `a`, as the
engine performs mid-flight (`execution.status = ...`,
schema.ts:513-527) and as any holder of the reference can. -/
def WorkflowStore.updateAt (st : WorkflowStore) (a : Nat)
    (f : WorkflowExecution → WorkflowExecution) : WorkflowStore :=
  match st.heap.get? a with
  | none => st
  | some e => { st with heap := st.heap.set a (f e) }

/-- Counterexample for **C10** as stated: from a store holding one
`running` execution, `getWorkflowStatus` returns its reference
(address 0); after the engine's mid-flight mutation of that object the
same reference dereferences to the `completed` record — the mutation
*is* visible through the previously returned value, so it is not a
read-only snapshot as of call time. -/
theorem getWorkflowStatus_snapshot_counterexample :
    ((⟨[⟨"workflow-1", "running", [], 0, none, none⟩], [("workflow-1", 0)]⟩ :
        WorkflowStore).getWorkflowStatus "workflow-1" = some 0) ∧
    ((⟨[⟨"workflow-1", "running", [], 0, none, none⟩], [("workflow-1", 0)]⟩ :
        WorkflowStore).deref 0 = some ⟨"workflow-1", "running", [], 0, none, none⟩) ∧
    (((⟨[⟨"workflow-1", "running", [], 0, none, none⟩], [("workflow-1", 0)]⟩ :
        WorkflowStore).updateAt 0 (fun e => { e with status := "completed" })).deref 0 =
      some ⟨"workflow-1", "completed", [], 0, none, none⟩) ∧
    ("completed" : String) ≠ "running" := by
  refine ⟨rfl, rfl, rfl, by decide⟩

theorem get?_set_self {α : Type} :
    ∀ (l : List α) (i : Nat) (x e : α), l.get? i = some e → (l.set i x).get? i = some x := by
  intro l
  induction l with
  | nil => intro i x e h; simp [List.get?] at h
  | cons a l ih =>
    intro i x e h
    cases i with
    | zero => simp [List.set, List.get?]
    | succ i =>
      simp only [List.set, List.get?]
      exact ih i x e (by simpa [List.get?] using h)

theorem get?_set_other {α : Type} :
    ∀ (l : List α) (i j : Nat) (x : α), i ≠ j → (l.set i x).get? j = l.get? j := by
  intro l
  induction l with
  | nil => intro i j x _; simp [List.set]
  | cons a l ih =>
    intro i j x hne
    cases i with
    | zero =>
      cases j with
      | zero => exact absurd rfl hne
      | succ j => simp [List.set, List.get?]
    | succ i =>
      cases j with
      | zero => simp [List.set, List.get?]
      | succ j => simpa [List.set, List.get?] using ih i j x (fun he => hne (by rw [he]))

/-- **C10 (amended)** — `getWorkflowStatus` returns the *live*
execution record by reference, not a snapshot: the returned reference
still resolves after an in-place mutation at that address, the
mutation — whether the engine's mid-flight update or a caller's write
through the returned reference — is visible to every holder of the
reference (it alters the engine's record itself), and objects at other
addresses are untouched. -/
theorem getWorkflowStatus_live_reference (st : WorkflowStore) (wfId : String) (a : Nat)
    (e : WorkflowExecution) (f : WorkflowExecution → WorkflowExecution)
    (hget : st.getWorkflowStatus wfId = some a) (he : st.deref a = some e) :
    (st.updateAt a f).getWorkflowStatus wfId = some a ∧
    (st.updateAt a f).deref a = some (f e) ∧
    (∀ b, b ≠ a → (st.updateAt a f).deref b = st.deref b) := by
  refine ⟨?_, ?_, fun b hb => ?_⟩
  · unfold WorkflowStore.updateAt
    rcases hh : st.heap.get? a with _ | v
    · exact hget
    · exact hget
  · unfold WorkflowStore.updateAt WorkflowStore.deref
    unfold WorkflowStore.deref at he
    rw [he]
    exact get?_set_self st.heap a (f e) e he
  · unfold WorkflowStore.updateAt WorkflowStore.deref
    rcases hh : st.heap.get? a with _ | v
    · rfl
    · exact get?_set_other st.heap a b (f v) (fun hab => hb hab.symm)

/-- Witness for C10 (amended): at the concrete one-record store, the
reference returned for `workflow-1` sees the engine's `completed`
update. -/
theorem getWorkflowStatus_live_reference_witness :
    ((⟨[⟨"workflow-1", "running", [], 0, none, none⟩], [("workflow-1", 0)]⟩ :
        WorkflowStore).updateAt 0
        (fun e => { e with status := "completed" })).getWorkflowStatus "workflow-1" = some 0 ∧
    ((⟨[⟨"workflow-1", "running", [], 0, none, none⟩], [("workflow-1", 0)]⟩ :
        WorkflowStore).updateAt 0 (fun e => { e with status := "completed" })).deref 0 =
      some ⟨"workflow-1", "completed", [], 0, none, none⟩ ∧
    ((⟨[⟨"workflow-1", "running", [], 0, none, none⟩], [("workflow-1", 0)]⟩ :
        WorkflowStore).updateAt 0 (fun e => { e with status := "completed" })).deref 1 =
      (⟨[⟨"workflow-1", "running", [], 0, none, none⟩], [("workflow-1", 0)]⟩ :
        WorkflowStore).deref 1 := by
  have h := getWorkflowStatus_live_reference
    ⟨[⟨"workflow-1", "running", [], 0, none, none⟩], [("workflow-1", 0)]⟩
    "workflow-1" 0 ⟨"workflow-1", "running", [], 0, none, none⟩
    (fun e => { e with status := "completed" }) rfl rfl
  exact ⟨h.1, h.2.1, h.2.2 1 (by decide)⟩
